import Mathlib

/-!
Shallow embedding of the logo-png repository core (src/logo.rs, src/live.rs,
and the update loop driven from src/main.rs).

Conventions of the embedding:
- Rust `Vec<T>` is `List T`; `String` color tokens are `List Char` (the tokens
  are hex color strings; we model byte length as character length, i.e. ASCII
  tokens, which covers every token shape the code distinguishes).
- Machine integers (`usize`, `u32`, `u8`) are `Nat`, with every `usize`
  computation that can exceed `2 ^ 64` carrying an explicit `% 2 ^ 64`
  (release-profile wrapping semantics): the renderer's size products
  (`width * height * 4` wraps for `u32` sizes above about `3.07e7`), the
  pixel index arithmetic, and the `AtomicUsize` listener-id counter. Loop
  counters (`enumerate` indices) stand for positions in real Rust `Vec`s,
  whose lengths are below `usize::MAX`, so they never wrap and stay plain
  `Nat`.
- Fallible Rust code returning `Result<_, Box<dyn Error>>` is modelled with
  `RunResult`, which distinguishes `ok`, `err` (an `Err` value travelling up
  through `?`) and `panicked` (a Rust panic: out-of-bounds `Vec` indexing,
  `expect` on an `Err`).
- The `png` crate encoding step of `get_logo_png` is an external collaborator
  (the spec treats rendering output as opaque bytes); we keep the raw RGBA
  raster (`Logo`) as the rendered payload instead of the PNG byte stream.
- Global state (`LOGO_CACHE`, `LISTENERS`, `NEXT_LISTENER_ID`) is passed
  explicitly; the network fetch of `update_logo` becomes a `FetchResult`
  parameter.
-/

namespace LogoPng

/-- Result of running a piece of Rust code: a normal value, an `Err` that the
surrounding `?` operators propagate, or a panic (out-of-bounds indexing,
`expect` on `Err`). -/
inductive RunResult (α : Type) where
  | ok : α → RunResult α
  | err : RunResult α
  | panicked : RunResult α
deriving DecidableEq, Repr

/-- Rust `Vec` indexing `v[i]`: panics when the index is out of bounds. -/
def vecGet {α : Type} (l : List α) (i : Nat) : RunResult α :=
  if h : i < l.length then .ok l[i] else .panicked

/-- Color token, a Rust `String` restricted to the ASCII tokens the code
distinguishes (so byte length = character length). -/
abbrev Str := List Char

/-- One panel of a character cell: `Vec<String>` in `logo.rs`. -/
abbrev Panel := List Str

/-- One character cell: `Vec<Vec<String>>` in `logo.rs`. -/
abbrev CharCell := List Panel

/-- Rust `struct LogoResponse \x7b logo: Vec<Vec<Vec<String>>> \x7d` (logo.rs line 22);
`#[derive(Eq, PartialEq)]` gives structural equality, mirrored by
`DecidableEq`. -/
structure LogoResponse where
  logo : List CharCell
deriving DecidableEq, Repr

/-- Initial value of `LOGO_CACHE` (logo.rs line 12):
`LogoResponse { logo: vec![] }`. -/
def LOGO_CACHE_init : LogoResponse := ⟨[]⟩

/-- Rust `struct LogoOptions \x7b size: Option<u32>, character: Option<u32> \x7d`
(logo.rs lines 16-19). The `character` field is accepted but never read by
the renderer. -/
structure LogoOptions where
  size : Option Nat
  character : Option Nat
deriving DecidableEq, Repr

/-- Mirror of `LogoOptions::default()`: both fields `None`. -/
def LogoOptions.default : LogoOptions := ⟨none, none⟩

/-- Rust `struct Logo \x7b width, height, data \x7d` (logo.rs lines 26-30): the RGBA
raster produced by `get_logo_data`. -/
structure Logo where
  width : Nat
  height : Nat
  data : List Nat
deriving DecidableEq, Repr

/-- Value of a single hexadecimal digit character, as recognised by Rust's
`u8::from_str_radix(_, 16)`. -/
def hexDigitVal (c : Char) : Option Nat :=
  if '0' ≤ c ∧ c ≤ '9' then some (c.toNat - '0'.toNat)
  else if 'a' ≤ c ∧ c ≤ 'f' then some (c.toNat - 'a'.toNat + 10)
  else if 'A' ≤ c ∧ c ≤ 'F' then some (c.toNat - 'A'.toNat + 10)
  else none

/-- Mirror of `u8::from_str_radix(s, 16)`: an optional leading `+`, then at least one
hex digit; `none` on an empty digit string, a non-hex character, or overflow
past `u8::MAX`. -/
def from_str_radix16 (s : Str) : Option Nat :=
  let digits := if s.head? = some '+' then s.tail else s
  if digits.isEmpty then none
  else digits.foldl (fun acc c =>
    match acc, hexDigitVal c with
    | some a, some d => if 16 * a + d ≤ 255 then some (16 * a + d) else none
    | _, _ => none) (some 0)

/-- Rust string slicing `&s[a..b]` on an ASCII string. -/
def strSlice (s : Str) (a b : Nat) : Str := (s.drop a).take (b - a)

/-- The color branch of `write_character` (logo.rs lines 162-176): a 7-byte
token is parsed as `#rrggbb`, a 6-byte token as `rrggbb` (either can fail with
an `Err` through `?`), and every other length falls back to the fixed gray
`(155, 155, 155)`. -/
def pixelColor (pixel : Str) : RunResult (Nat × Nat × Nat) :=
  if pixel.length = 7 then
    match from_str_radix16 (strSlice pixel 1 3), from_str_radix16 (strSlice pixel 3 5),
          from_str_radix16 (strSlice pixel 5 7) with
    | some r, some g, some b => .ok (r, g, b)
    | _, _, _ => .err
  else if pixel.length = 6 then
    match from_str_radix16 (strSlice pixel 0 2), from_str_radix16 (strSlice pixel 2 4),
          from_str_radix16 (strSlice pixel 4 6) with
    | some r, some g, some b => .ok (r, g, b)
    | _, _, _ => .err
  else
    .ok (155, 155, 155)

/-- Modulus of Rust `usize` arithmetic on the 64-bit target: products and
sums wrap at `2 ^ 64` in the release profile (a debug build would panic at
the same overflows; the deployed binary wraps). Used for the renderer's size
and index arithmetic and for `AtomicUsize::fetch_add`. -/
def USIZE_MOD : Nat := 2 ^ 64

/-- The four buffer stores of `write_character` (logo.rs lines 180-183):
`image[image_idx..image_idx+3] = [r, g, b, 255]`, panicking as Rust `Vec`
indexing does when any of the four indices is out of bounds. `len` is the
buffer's length `image.len()`: the buffer is allocated as
`vec![0; width * height * 4]` (logo.rs line 77, a wrapped `usize` product)
and element stores preserve that length, so the callers pass that wrapped
product for it. The four stores happen in order and the first out-of-bounds
index panics, which the single check `idx + 3 < len` (unwrapped) reproduces:
`idx + k` could only wrap for `idx` within 3 of `2 ^ 64`, and a store below
such an index succeeds only on a buffer of nearly `2 ^ 64` bytes, beyond any
allocation the program can make. -/
def writeRGBA (len : Nat) (image : List Nat) (idx r g b : Nat) : RunResult (List Nat) :=
  if idx + 3 < len then
    .ok ((((image.set idx r).set (idx + 1) g).set (idx + 2) b).set (idx + 3) 255)
  else .panicked

/-- Body of the two `extra_x` / `extra_y` scaling loops (logo.rs lines
159-183): scale the coordinates, parse the color token (the parse sits inside
the loops in the source), and store one RGBA pixel. -/
def writeScaledPixel (pixel : Str) (len pixel_size width x y extra_x extra_y : Nat)
    (image : List Nat) : RunResult (List Nat) :=
  let xx := (extra_x + x * pixel_size % USIZE_MOD) % USIZE_MOD
  let yy := (extra_y + y * pixel_size % USIZE_MOD) % USIZE_MOD
  match pixelColor pixel with
  | .ok (r, g, b) =>
    writeRGBA len image ((xx + yy * width % USIZE_MOD) % USIZE_MOD * 4 % USIZE_MOD) r g b
  | .err => .err
  | .panicked => .panicked

/-- Fold a fallible loop body over a list, stopping at the first `err` or
panic, exactly as a Rust `for` loop containing `?` and indexing does. -/
def foldRR {α β : Type} (f : β → α → RunResult β) : List α → β → RunResult β
  | [], b => .ok b
  | a :: rest, b =>
    match f b a with
    | .ok b2 => foldRR f rest b2
    | .err => .err
    | .panicked => .panicked

/-- The nested `for extra_x in 0..pixel_size { for extra_y in 0..pixel_size }`
loops of `write_character` (logo.rs lines 157-185). -/
def writePixelScaled (pixel : Str) (len pixel_size width x y : Nat)
    (image : List Nat) : RunResult (List Nat) :=
  foldRR (fun img extra_x =>
      foldRR (fun img2 extra_y =>
          writeScaledPixel pixel len pixel_size width x y extra_x extra_y img2)
        (List.range pixel_size) img)
    (List.range pixel_size) image

/-- The coordinates table of `write_character` (logo.rs lines 99-148); each
entry is the `[x, y]` panel origin. -/
def coords : List (List (Nat × Nat)) := [
  [(0, 0), (0, 16), (0, 24), (0, 32)],
  [(8, 0), (8, 8), (16, 8), (8, 16), (8, 24), (16, 24), (24, 24)],
  [(32, 8), (40, 8), (48, 8), (32, 16), (48, 16), (32, 24), (40, 24), (48, 24)],
  [(56, 8), (64, 8), (72, 8), (56, 16), (56, 24)],
  [(88, 8), (96, 8), (80, 16), (96, 16), (80, 24), (88, 24), (96, 24)],
  [(104, 0), (104, 8), (112, 8), (104, 16), (104, 24), (112, 24), (120, 24)],
  [(128, 8), (136, 8), (144, 8), (128, 16), (144, 16), (128, 24), (136, 24)]
]

/-- The `for (pixel_index, pixel) in panel.iter().enumerate()` loop of
`write_character` (logo.rs lines 151-186): compute the panel-relative
coordinates, look up `coords[char_index][panel_index]` (a panicking `Vec`
index), then run the scaling loops. -/
def write_pixels (char_index panel_index len pixel_size width : Nat) :
    List Str → Nat → List Nat → RunResult (List Nat)
  | [], _, image => .ok image
  | pixel :: rest, pixel_index, image =>
    let panel_x := pixel_index % 8
    let panel_y := pixel_index / 8
    match vecGet coords char_index with
    | .err => .err
    | .panicked => .panicked
    | .ok row =>
      match vecGet row panel_index with
      | .err => .err
      | .panicked => .panicked
      | .ok c =>
        match writePixelScaled pixel len pixel_size width ((c.1 + panel_x) % USIZE_MOD)
            ((c.2 + panel_y) % USIZE_MOD) image with
        | .ok image2 => write_pixels char_index panel_index len pixel_size width rest (pixel_index + 1) image2
        | .err => .err
        | .panicked => .panicked

/-- The `for (panel_index, panel) in chr.iter().enumerate()` loop of
`write_character` (logo.rs line 150). -/
def write_panels (char_index len pixel_size width : Nat) :
    List Panel → Nat → List Nat → RunResult (List Nat)
  | [], _, image => .ok image
  | panel :: rest, panel_index, image =>
    match write_pixels char_index panel_index len pixel_size width panel 0 image with
    | .ok image2 => write_panels char_index len pixel_size width rest (panel_index + 1) image2
    | .err => .err
    | .panicked => .panicked

/-- Mirror of `fn write_character(chr, char_index, pixel_size, width, image)`
(logo.rs lines 92-190); `len` is the buffer length as in `writeRGBA`. -/
def write_character (chr : CharCell) (char_index len pixel_size width : Nat)
    (image : List Nat) : RunResult (List Nat) :=
  write_panels char_index len pixel_size width chr 0 image

/-- The `for (char_index, chr) in live_logo.logo.iter().enumerate()` loop of
`get_logo_data` (logo.rs lines 81-83). -/
def write_chars (len pixel_size width : Nat) :
    List CharCell → Nat → List Nat → RunResult (List Nat)
  | [], _, image => .ok image
  | chr :: rest, char_index, image =>
    match write_character chr char_index len pixel_size width image with
    | .ok image2 => write_chars len pixel_size width rest (char_index + 1) image2
    | .err => .err
    | .panicked => .panicked

/-- Mirror of `fn get_logo_data(options)` (logo.rs lines 72-90), with the
`LOGO_CACHE` read passed in explicitly as `cache`. The `usize` products
`152 * pixel_size`, `32 * pixel_size` and `width * height * 4` carry the
wrap of the 64-bit target: with `size` a `u32`, the allocation product
overflows for sizes of roughly `3.07e7` and above (e.g. `size = 2 ^ 27`
gives `19456 * s ^ 2 = 19 * 2 ^ 64`, a zero-length allocation). -/
def get_logo_data (cache : LogoResponse) (options : LogoOptions) : RunResult Logo :=
  let pixel_size := options.size.getD 1
  let width := 152 * pixel_size % USIZE_MOD
  let height := 32 * pixel_size % USIZE_MOD
  let image := List.replicate (width * height % USIZE_MOD * 4 % USIZE_MOD) 0
  match write_chars (width * height % USIZE_MOD * 4 % USIZE_MOD) pixel_size width
      cache.logo 0 image with
  | .ok image2 => .ok ⟨width, height, image2⟩
  | .err => .err
  | .panicked => .panicked

/-- Mirror of `fn get_logo_png(options)` (logo.rs lines 56-70): renders the raster via
`get_logo_data` and PNG-encodes it with the external `png` crate. The
encoding is an external collaborator producing opaque bytes, so the payload is
modelled as the raster `Logo` itself; the `?` on `get_logo_data` propagates
its failure. -/
def get_logo_png (cache : LogoResponse) (options : LogoOptions) : RunResult Logo :=
  get_logo_data cache options

/-- Result of the `reqwest::get(..).json()` fetch at the top of `update_logo`
(logo.rs line 33): a decoded `LogoResponse`, or an error (network or decode)
that `?` propagates. -/
inductive FetchResult where
  | ok : LogoResponse → FetchResult
  | err : FetchResult
deriving DecidableEq, Repr

/-- Observable side effects of one `update_logo` cycle: whether the render
path was entered (`get_logo_png` invoked), the payload handed to
`live::send_update`, and the payload handed to `db::save_logo` (the db write
itself may still fail; that failure is only logged). -/
structure CycleEvents where
  renderInvoked : Bool
  broadcast : Option Logo
  persisted : Option Logo
deriving DecidableEq, Repr

/-- How one `update_logo` cycle ended: a normal `Ok(())` return, an `Err`
returned to the caller (the main loop logs it and sleeps), or a panic of the
updater thread (`expect` on a render failure, or an out-of-bounds index inside
the render). -/
inductive CycleOutcome where
  | ok : CycleOutcome
  | fetchFailed : CycleOutcome
  | panicked : CycleOutcome
deriving DecidableEq, Repr

/-- State and events after one `update_logo` cycle. -/
structure CycleResult where
  cache : LogoResponse
  events : CycleEvents
  outcome : CycleOutcome
deriving DecidableEq, Repr

/-- Mirror of `fn update_logo()` (logo.rs lines 32-55): compare the fetched value with
`LOGO_CACHE`; when not structurally equal, install the fetched
value, render with default options (`expect` panics on a render `Err` or
inside a render panic), broadcast the payload and hand it to the db; when
equal, do nothing. A fetch failure returns `Err` before anything is touched. -/
def update_logo (cache : LogoResponse) (fetched : FetchResult) : CycleResult :=
  match fetched with
  | .err => ⟨cache, ⟨false, none, none⟩, .fetchFailed⟩
  | .ok live_logo =>
    if live_logo ≠ cache then
      match get_logo_png live_logo LogoOptions.default with
      | .ok logo_png => ⟨live_logo, ⟨true, some logo_png, some logo_png⟩, .ok⟩
      | .err => ⟨live_logo, ⟨true, none, none⟩, .panicked⟩
      | .panicked => ⟨live_logo, ⟨true, none, none⟩, .panicked⟩
    else ⟨cache, ⟨false, none, none⟩, .ok⟩

/-- One listener's outbound channel (`mpsc::UnboundedSender<Message>` in
live.rs): `closed` models a receiver that has gone away (so `unbounded_send`
returns `Err`), `buffer` the messages enqueued so far. -/
structure Sink where
  closed : Bool
  buffer : List Logo
deriving DecidableEq, Repr

/-- Mirror of `fn send_update(logo_png)` (live.rs lines 22-28): iterate over the
`LISTENERS` entries; a failed `unbounded_send` (closed sink) is logged and the
loop continues with the remaining listeners. Returns the updated listener
set. -/
def send_update (payload : Logo) (listeners : List (Nat × Sink)) : List (Nat × Sink) :=
  listeners.map (fun l =>
    if l.2.closed then l
    else (l.1, { l.2 with buffer := l.2.buffer ++ [payload] }))

/-- Global listener state of live.rs: `NEXT_LISTENER_ID` (line 16) and the
`LISTENERS` map (line 19), the latter as an id-keyed entry list. -/
structure Registry where
  next_listener_id : Nat
  listeners : List (Nat × Sink)
deriving DecidableEq, Repr

/-- Initial listener state: `NEXT_LISTENER_ID` starts at 1 (live.rs line 16)
and `LISTENERS` starts empty (line 19). -/
def Registry.init : Registry := ⟨1, []⟩

/-- The registration half of `fn listener_connected` (live.rs lines 30-50):
`my_id = NEXT_LISTENER_ID.fetch_add(1, Relaxed)` (returning the old value and
wrapping at `2 ^ 64`), then insert a fresh channel under `my_id`. -/
def listener_connected (reg : Registry) : Nat × Registry :=
  let my_id := reg.next_listener_id
  (my_id,
    { next_listener_id := (reg.next_listener_id + 1) % USIZE_MOD,
      listeners := reg.listeners ++ [(my_id, ⟨false, []⟩)] })

/-- The disconnect cleanup of `listener_connected` (live.rs line 68):
`LISTENERS.write().remove(&my_id)`. -/
def listener_disconnected (reg : Registry) (id : Nat) : Registry :=
  { reg with listeners := reg.listeners.filter (fun l => l.1 ≠ id) }

/-- One registry operation: a websocket connection (register) or a disconnect
(unregister). -/
inductive RegOp where
  | register : RegOp
  | unregister : Nat → RegOp
deriving DecidableEq, Repr

/-- Number of register operations in a sequence. -/
def registerCount : List RegOp → Nat
  | [] => 0
  | .register :: rest => registerCount rest + 1
  | .unregister _ :: rest => registerCount rest

/-- Run a sequence of registry operations, returning the final state and the
ids assigned to the registrations, in order. -/
def runOps : List RegOp → Registry → Registry × List Nat
  | [], reg => (reg, [])
  | .register :: rest, reg =>
    let p := listener_connected reg
    let q := runOps rest p.2
    (q.1, p.1 :: q.2)
  | .unregister i :: rest, reg => runOps rest (listener_disconnected reg i)

/-- Whether a `RunResult` is a normal value. -/
def RunResult.isOk {α : Type} : RunResult α → Bool
  | .ok _ => true
  | .err => false
  | .panicked => false

/-- The value of an `ok` result, if any. -/
def RunResult.toOption {α : Type} : RunResult α → Option α
  | .ok a => some a
  | .err => none
  | .panicked => none

/-- Whether every character cell of `logo`, counted from character index
`ci`, stays inside the coordinates table: each character index is below the
seven table rows and each character holds no more panels than its row has
entries. -/
def withinCoordsFrom : List CharCell → Nat → Bool
  | [], _ => true
  | chr :: rest, ci =>
    decide (ci < 7) && decide (chr.length ≤ (coords.getD ci []).length) &&
      withinCoordsFrom rest (ci + 1)

/-- Whether a description stays inside the coordinates table. -/
def withinCoords (r : LogoResponse) : Bool := withinCoordsFrom r.logo 0

/-- Pixel-cell invariant of the raster buffer: every aligned 4-byte cell
either carries alpha byte 255 (the renderer wrote it — every store writes
alpha 255) or still holds the four zero bytes of the initial
`vec![0; width * height * 4]` allocation. -/
def alphaOrZero (data : List Nat) : Prop :=
  ∀ p : Nat, 4 * p + 3 < data.length →
    (data[4 * p + 3]? = some 255 ∨
      (data[4 * p]? = some 0 ∧ data[4 * p + 1]? = some 0 ∧
       data[4 * p + 2]? = some 0 ∧ data[4 * p + 3]? = some 0))

/-- C1: one `update_logo` cycle with a successfully fetched `candidate`
installs the candidate as the cached value and enters the propagation path
(render; and whenever rendering succeeds, broadcast of the rendered payload
via `send_update` followed by the `db::save_logo` persist) iff the candidate
is not structurally equal to the currently cached value; when they are
structurally equal, the cached value is left untouched, the broadcaster is
not invoked, and persist is not called. -/
theorem update_logo_change_gate (cache candidate : LogoResponse) :
    ((update_logo cache (.ok candidate)).events.renderInvoked = true ↔ candidate ≠ cache) ∧
    ((update_logo cache (.ok candidate)).cache = if candidate ≠ cache then candidate else cache) ∧
    (candidate = cache → update_logo cache (.ok candidate) = ⟨cache, ⟨false, none, none⟩, .ok⟩) ∧
    (candidate ≠ cache →
      (get_logo_png candidate LogoOptions.default).isOk = true →
      update_logo cache (.ok candidate) =
        ⟨candidate,
         ⟨true, (get_logo_png candidate LogoOptions.default).toOption,
          (get_logo_png candidate LogoOptions.default).toOption⟩, .ok⟩) := by
  by_cases h : candidate = cache
  · subst h
    simp [update_logo]
  · rcases hr : get_logo_png candidate LogoOptions.default with png | _ | _ <;>
      simp [update_logo, h, hr, RunResult.isOk, RunResult.toOption]

/-- C1 witness: from the empty initial cache, fetching the one-pixel red
description takes the changed branch: it is installed, rendered, broadcast
and persisted. -/
theorem update_logo_change_gate_witness :
    update_logo LOGO_CACHE_init (.ok ⟨[[["#ff0000".toList]]]⟩) =
      ⟨⟨[[["#ff0000".toList]]]⟩,
       ⟨true, (get_logo_png ⟨[[["#ff0000".toList]]]⟩ LogoOptions.default).toOption,
        (get_logo_png ⟨[[["#ff0000".toList]]]⟩ LogoOptions.default).toOption⟩, .ok⟩ :=
  (update_logo_change_gate LOGO_CACHE_init ⟨[[["#ff0000".toList]]]⟩).2.2.2
    (by decide) (by decide)

/-- C2 counterexample: with the empty initial cache and a fetched description
whose single color token `"#zz0000"` makes rendering fail, the cycle does not
end in the logged-and-continue state the claim describes: the updater panics
(`expect("Could not get logo data")`), so the cycle's outcome is `panicked`,
not a normal `ok` return. -/
theorem render_failure_not_survived_cex :
    (update_logo LOGO_CACHE_init (.ok ⟨[[["#zz0000".toList]]]⟩)).outcome = CycleOutcome.panicked ∧
    CycleOutcome.panicked ≠ CycleOutcome.ok := by decide

/-- C2 amended: when the fetched description differs from the cache and
rendering it fails, broadcast and persist are indeed both skipped for that
cycle, but the failure is not logged and survived: `update_logo` panics via
`expect("Could not get logo data")` after the cache has already been
replaced, killing the updater thread (the loop never reaches another tick;
only the request-serving threads of the process survive). -/
theorem update_logo_render_failure_panics (cache candidate : LogoResponse)
    (hne : candidate ≠ cache)
    (hfail : get_logo_png candidate LogoOptions.default = .err) :
    update_logo cache (.ok candidate) = ⟨candidate, ⟨true, none, none⟩, .panicked⟩ := by
  simp [update_logo, hne, hfail]

/-- C2 amended witness: the `"#zz0000"` description realises the render
failure concretely. -/
theorem update_logo_render_failure_panics_witness :
    update_logo LOGO_CACHE_init (.ok ⟨[[["#zz0000".toList]]]⟩) =
      ⟨⟨[[["#zz0000".toList]]]⟩, ⟨true, none, none⟩, .panicked⟩ :=
  update_logo_render_failure_panics LOGO_CACHE_init ⟨[[["#zz0000".toList]]]⟩
    (by decide) (by decide)

/-- C6: a cycle whose fetch fails returns the `Err` to the main loop (which
logs it and sleeps until the next tick) with the cached description exactly
as it was: no broadcast, no persist, no cache mutation, no render. -/
theorem update_logo_fetch_failure (cache : LogoResponse) :
    update_logo cache .err = ⟨cache, ⟨false, none, none⟩, .fetchFailed⟩ := rfl

/-- C7: starting from the empty initial cache, a fetch returning
`[[["#ff0000"]]]` reports a change (the candidate is installed and the
rendered payload is broadcast and persisted) and the default-option render is
a 152x32 raster whose first four bytes are the red pixel
(255, 0, 0, 255). -/
theorem scenario_red_pixel :
    (update_logo LOGO_CACHE_init (.ok ⟨[[["#ff0000".toList]]]⟩)).cache = ⟨[[["#ff0000".toList]]]⟩ ∧
    (update_logo LOGO_CACHE_init (.ok ⟨[[["#ff0000".toList]]]⟩)).outcome = CycleOutcome.ok ∧
    ((update_logo LOGO_CACHE_init (.ok ⟨[[["#ff0000".toList]]]⟩)).events.broadcast.map
        (fun l => (l.width, l.height, l.data.take 4))) = some (152, 32, [255, 0, 0, 255]) ∧
    (update_logo LOGO_CACHE_init (.ok ⟨[[["#ff0000".toList]]]⟩)).events.persisted.isSome = true := by
  decide

/-- Out-of-bounds `Vec` indexing panics. -/
theorem vecGet_oob {α : Type} {l : List α} {i : Nat} (h : l.length ≤ i) :
    vecGet l i = .panicked := by
  unfold vecGet
  rw [dif_neg (by omega)]

/-- In-bounds `Vec` indexing yields the element. -/
theorem vecGet_ok {α : Type} {l : List α} {i : Nat} (h : i < l.length) :
    vecGet l i = .ok (l.get ⟨i, h⟩) := by
  simp [vecGet, h]

/-- A nonempty pixel loop for a character index beyond the coordinates table
hits `coords[char_index]` and panics. -/
theorem write_pixels_off_table (char_index panel_index len pixel_size width : Nat)
    (h : 7 ≤ char_index) (pixels : List Str) (pixel_index : Nat) (image : List Nat)
    (hne : pixels ≠ []) :
    write_pixels char_index panel_index len pixel_size width pixels pixel_index image
      = .panicked := by
  cases pixels with
  | nil => exact absurd rfl hne
  | cons p rest =>
    have hlen : coords.length = 7 := rfl
    have hc : vecGet coords char_index = .panicked := vecGet_oob (by omega)
    simp [write_pixels, hc]

/-- The panel loop panics at its first nonempty panel when the character
index is beyond the coordinates table. -/
theorem write_panels_off_table (char_index len pixel_size width : Nat)
    (h : 7 ≤ char_index) :
    ∀ (panels : List Panel) (panel_index : Nat) (image : List Nat),
      (∃ panel ∈ panels, panel ≠ []) →
      write_panels char_index len pixel_size width panels panel_index image = .panicked := by
  intro panels
  induction panels with
  | nil =>
    rintro _ _ ⟨p, hp, _⟩
    cases hp
  | cons panel rest ih =>
    intro panel_index image hex
    by_cases hp : panel = []
    · subst hp
      have hrest : ∃ q ∈ rest, q ≠ [] := by
        rcases hex with ⟨q, hq, hqne⟩
        cases hq with
        | head => exact absurd rfl hqne
        | tail _ hmem => exact ⟨q, hmem, hqne⟩
      simp only [write_panels, write_pixels]
      exact ih _ _ hrest
    · have hpix := write_pixels_off_table char_index panel_index len pixel_size width h
        panel 0 image hp
      simp [write_panels, hpix]

/-- C3 counterexample: a description of eight character-cells, the eighth
holding one panel with one (empty) color cell, is structurally beyond the
7-row coordinates table; rendering it with default options panics
(out-of-bounds `Vec` index), it does not return the claimed recoverable
error result. -/
theorem off_table_description_cex :
    get_logo_data ⟨List.replicate 7 [] ++ [[[([] : Str)]]]⟩ LogoOptions.default
        = .panicked ∧
    (RunResult.panicked : RunResult Logo) ≠ .err := by decide

/-- C3 amended: a `LogoDescription` whose structure exceeds the coordinates
table does not produce a recoverable error: the off-table
`coords[char_index][panel_index]` access is an out-of-bounds `Vec` index,
which panics (crashing the calling thread). In particular `write_character`
panics for every character index beyond the seven table rows as soon as the
character holds any pixel; the `err` result of rendering is reserved for
malformed 6- or 7-byte color tokens, not structural mismatch. -/
theorem write_character_off_table_panics (chr : CharCell)
    (char_index len pixel_size width : Nat) (image : List Nat)
    (hchar : 7 ≤ char_index) (hpix : ∃ panel ∈ chr, panel ≠ []) :
    write_character chr char_index len pixel_size width image = .panicked :=
  write_panels_off_table char_index len pixel_size width hchar chr 0 image hpix

/-- C3 amended witness: character index 7 with a single one-pixel panel
panics. -/
theorem write_character_off_table_panics_witness :
    write_character [[([] : Str)]] 7 19456 1 152 (List.replicate 19456 0) = .panicked :=
  write_character_off_table_panics [[([] : Str)]] 7 19456 1 152
    (List.replicate 19456 0) (by decide) ⟨[([] : Str)], by decide⟩

/-- C4 counterexample: the 7-byte color token `"#zz0000"` is not well-formed
hex; rendering the one-pixel description holding it fails as a whole with an
error (the `?` on `u8::from_str_radix` propagates), instead of substituting
the gray fallback and succeeding as the claim states. -/
theorem malformed_token_fails_render_cex :
    get_logo_data ⟨[[["#zz0000".toList]]]⟩ LogoOptions.default = .err := by decide

/-- C4 amended: the gray fallback `(155, 155, 155)` is applied exactly to the
color tokens whose byte length is neither 7 nor 6 — those render without
failing (shown for the one-pixel description: the render succeeds and writes
gray with full alpha at the top-left pixel). A 6- or 7-byte token whose
digits are not valid hex fails the whole render with an error. -/
theorem short_token_gray_fallback (pixel : Str)
    (h7 : pixel.length ≠ 7) (h6 : pixel.length ≠ 6) :
    pixelColor pixel = .ok (155, 155, 155) ∧
    get_logo_data ⟨[[[pixel]]]⟩ LogoOptions.default =
      .ok ⟨152, 32,
        ((((List.replicate (152 * 32 * 4) 0).set 0 155).set 1 155).set 2 155).set 3 255⟩ := by
  have hc : pixelColor pixel = .ok (155, 155, 155) := by
    simp [pixelColor, h7, h6]
  refine ⟨hc, ?_⟩
  have h1 : vecGet coords 0 = .ok [(0, 0), (0, 16), (0, 24), (0, 32)] := by decide
  have h2 : vecGet [(0, 0), (0, 16), (0, 24), (0, 32)] 0 = .ok ((0 : Nat), (0 : Nat)) := by
    decide
  simp only [get_logo_data, write_chars, write_character, write_panels, write_pixels,
    h1, h2, writePixelScaled, List.range_succ, List.range_zero, List.nil_append, foldRR,
    writeScaledPixel, hc, writeRGBA, LogoOptions.default, Option.getD]
  norm_num [USIZE_MOD]

/-- C4 amended witness: the 3-byte token `"#zz"` falls back to gray and the
whole render succeeds. -/
theorem short_token_gray_fallback_witness :
    pixelColor "#zz".toList = .ok (155, 155, 155) ∧
    get_logo_data ⟨[[["#zz".toList]]]⟩ LogoOptions.default =
      .ok ⟨152, 32,
        ((((List.replicate (152 * 32 * 4) 0).set 0 155).set 1 155).set 2 155).set 3 255⟩ :=
  short_token_gray_fallback "#zz".toList (by decide) (by decide)

/-- C5: `send_update` with exactly one closed subscriber sink still enqueues
the payload onto every other subscriber's sink: the failed `unbounded_send`
is caught and logged, and delivery continues with the remaining listeners
(the listener set keeps its size; every open entry gets the payload appended
to its buffer). -/
theorem send_update_isolation (listeners : List (Nat × Sink)) (payload : Logo)
    (_hone : (listeners.filter (fun l => l.2.closed)).length = 1) :
    (send_update payload listeners).length = listeners.length ∧
    ∀ (i : Nat) (p : Nat × Sink), listeners[i]? = some p → p.2.closed = false →
      (send_update payload listeners)[i]? =
        some (p.1, ⟨false, p.2.buffer ++ [payload]⟩) := by
  refine ⟨by simp [send_update], ?_⟩
  intro i p hp hclosed
  obtain ⟨pid, sk⟩ := p
  obtain ⟨cl, buf⟩ := sk
  simp only [Sink.mk.injEq] at hclosed ⊢
  subst hclosed
  simp [send_update, List.getElem?_map, hp]

/-- C5 witness: three listeners with the middle sink closed; the first and
third still receive the payload. -/
theorem send_update_isolation_witness :
    (send_update ⟨1, 1, [7]⟩
        [(1, ⟨false, []⟩), (2, ⟨true, []⟩), (3, ⟨false, []⟩)]).length = 3 ∧
    (send_update ⟨1, 1, [7]⟩
        [(1, ⟨false, []⟩), (2, ⟨true, []⟩), (3, ⟨false, []⟩)])[0]? =
      some (1, ⟨false, [⟨1, 1, [7]⟩]⟩) ∧
    (send_update ⟨1, 1, [7]⟩
        [(1, ⟨false, []⟩), (2, ⟨true, []⟩), (3, ⟨false, []⟩)])[2]? =
      some (3, ⟨false, [⟨1, 1, [7]⟩]⟩) := by
  have h := send_update_isolation
    [(1, ⟨false, []⟩), (2, ⟨true, []⟩), (3, ⟨false, []⟩)] ⟨1, 1, [7]⟩ (by decide)
  exact ⟨h.1, h.2 0 (1, ⟨false, []⟩) (by decide) (by decide),
    h.2 2 (3, ⟨false, []⟩) (by decide) (by decide)⟩

/-- A sequence with no registrations assigns no ids. -/
theorem runOps_ids_nil (ops : List RegOp) :
    ∀ reg : Registry, registerCount ops = 0 → (runOps ops reg).2 = [] := by
  induction ops with
  | nil => intro reg _; rfl
  | cons op rest ih =>
    intro reg h
    cases op with
    | register => simp [registerCount] at h
    | unregister i =>
      simp only [runOps]
      exact ih _ (by simpa [registerCount] using h)

/-- As long as the `usize` counter cannot wrap, a sequence of registry
operations assigns the consecutive ids starting at the current counter
value. -/
theorem runOps_ids (ops : List RegOp) :
    ∀ reg : Registry, reg.next_listener_id + registerCount ops ≤ USIZE_MOD →
      (runOps ops reg).2 = List.range' reg.next_listener_id (registerCount ops) := by
  induction ops with
  | nil => intro reg _; rfl
  | cons op rest ih =>
    intro reg h
    cases op with
    | unregister i =>
      simp only [runOps, registerCount]
      exact ih _ (by simpa [registerCount, listener_disconnected] using h)
    | register =>
      simp only [runOps, registerCount, listener_connected] at h ⊢
      rw [List.range'_succ]
      by_cases hz : registerCount rest = 0
      · rw [hz, runOps_ids_nil rest _ hz, List.range'_zero]
      · have hlt : reg.next_listener_id + 1 < USIZE_MOD := by omega
        have hmod : (reg.next_listener_id + 1) % USIZE_MOD = reg.next_listener_id + 1 :=
          Nat.mod_eq_of_lt hlt
        have := ih ⟨(reg.next_listener_id + 1) % USIZE_MOD,
          reg.listeners ++ [(reg.next_listener_id, ⟨false, []⟩)]⟩ (by simp [hmod]; omega)
        simpa [hmod] using this

/-- C8: over every sequence of register and unregister operations from the
initial state (counter at 1) in which the `usize` counter cannot wrap
(fewer than `2 ^ 64` registrations — any sequence a process lifetime can
reach), the assigned listener ids are exactly 1, 2, 3, ... in order:
strictly increasing, starting at 1, never reusing an id even after its
listener was removed. -/
theorem listener_ids_monotone (ops : List RegOp)
    (h : registerCount ops + 1 ≤ USIZE_MOD) :
    (runOps ops Registry.init).2 = List.range' 1 (registerCount ops) ∧
    List.Pairwise (· < ·) ((runOps ops Registry.init).2) := by
  have hids := runOps_ids ops Registry.init (by simp [Registry.init]; omega)
  refine ⟨hids, ?_⟩
  rw [hids]
  exact List.pairwise_lt_range' 1 (registerCount ops) 1

/-- C8 witness: register three listeners, remove the second, register a
fourth: ids 1, 2, 3, 4, strictly increasing, id 2 not reused. -/
theorem listener_ids_monotone_witness :
    (runOps [.register, .register, .register, .unregister 2, .register] Registry.init).2 =
      List.range' 1 4 ∧
    List.Pairwise (· < ·)
      ((runOps [.register, .register, .register, .unregister 2, .register] Registry.init).2) :=
  listener_ids_monotone [.register, .register, .register, .unregister 2, .register]
    (by decide)

/-- With pixel scale zero the scaling loops are empty, so a pixel writes
nothing (and parses nothing), provided its coordinates lookup is in
bounds. -/
theorem write_pixels_size_zero (char_index panel_index len width : Nat)
    (hci : char_index < coords.length)
    (hpi : panel_index < (coords.get ⟨char_index, hci⟩).length) :
    ∀ (pixels : List Str) (pixel_index : Nat) (image : List Nat),
      write_pixels char_index panel_index len 0 width pixels pixel_index image = .ok image := by
  intro pixels
  induction pixels with
  | nil => intro _ _; rfl
  | cons p rest ih =>
    intro pixel_index image
    simp only [write_pixels, vecGet_ok hci, vecGet_ok hpi, writePixelScaled,
      List.range_zero, foldRR]
    exact ih _ _

/-- With pixel scale zero a whole panel list writes nothing, provided every
panel index stays inside the character's coordinates row. -/
theorem write_panels_size_zero (char_index len width : Nat)
    (hci : char_index < coords.length) :
    ∀ (panels : List Panel) (panel_index : Nat) (image : List Nat),
      panel_index + panels.length ≤ (coords.get ⟨char_index, hci⟩).length →
      write_panels char_index len 0 width panels panel_index image = .ok image := by
  intro panels
  induction panels with
  | nil => intro _ _ _; rfl
  | cons panel rest ih =>
    intro panel_index image hb
    have h0 : panel_index < (coords.get ⟨char_index, hci⟩).length := by
      simp only [List.length_cons] at hb
      omega
    simp only [write_panels, write_pixels_size_zero char_index panel_index len width hci h0]
    exact ih (panel_index + 1) image (by simp only [List.length_cons] at hb; omega)

/-- With pixel scale zero a whole in-table description writes nothing. -/
theorem write_chars_size_zero (len width : Nat) :
    ∀ (chars : List CharCell) (char_index : Nat) (image : List Nat),
      withinCoordsFrom chars char_index = true →
      write_chars len 0 width chars char_index image = .ok image := by
  intro chars
  induction chars with
  | nil => intro _ _ _; rfl
  | cons chr rest ih =>
    intro char_index image h
    simp only [withinCoordsFrom, Bool.and_eq_true, decide_eq_true_eq] at h
    obtain ⟨⟨hci, hlen⟩, hrest⟩ := h
    have hci7 : char_index < coords.length := by
      have h7 : coords.length = 7 := rfl
      omega
    have hrow : coords.getD char_index [] = coords.get ⟨char_index, hci7⟩ := by
      rw [List.getD_eq_getElem _ _ hci7, List.get_eq_getElem]
    have hchr : 0 + chr.length ≤ (coords.get ⟨char_index, hci7⟩).length := by
      rw [← hrow]
      omega
    simp only [write_chars, write_character,
      write_panels_size_zero char_index len width hci7 chr 0 image hchr]
    exact ih (char_index + 1) image hrest

/-- C10: the options type accepts `size = 0` (the spec's RenderOptions demands
pixelScale ≥ 1): for every description inside the coordinate table,
`get_logo_data` with `size = 0` returns `Ok` with width 0, height 0 and an
empty byte buffer — the scaling loops are empty so no color token is ever
parsed, hence even malformed tokens cannot produce an error at this stage. -/
theorem get_logo_data_size_zero (cache : LogoResponse) (ch : Option Nat)
    (h : withinCoords cache = true) :
    get_logo_data cache ⟨some 0, ch⟩ = .ok ⟨0, 0, []⟩ := by
  have hw := write_chars_size_zero 0 0 cache.logo 0 []
    (by simpa [withinCoords] using h)
  simp [get_logo_data, hw]

/-- C10 witness: a one-pixel description whose only token is malformed still
renders to the empty 0x0 buffer at `size = 0`. -/
theorem get_logo_data_size_zero_witness :
    get_logo_data ⟨[[["#zz0000".toList]]]⟩ ⟨some 0, none⟩ = .ok ⟨0, 0, []⟩ :=
  get_logo_data_size_zero ⟨[[["#zz0000".toList]]]⟩ none (by decide)

/-- The initial all-zero allocation satisfies the pixel-cell invariant. -/
theorem alphaOrZero_replicate (n : Nat) : alphaOrZero (List.replicate n 0) := by
  intro p hp
  rw [List.length_replicate] at hp
  right
  refine ⟨?_, ?_, ?_, ?_⟩ <;> rw [List.getElem?_replicate, if_pos (by omega)]

/-- Reading any index of another pixel cell is unaffected by the four stores
of one pixel write. -/
theorem set4_getElem_ne {image : List Nat} {m q r g b : Nat}
    (h0 : q ≠ 4 * m) (h1 : q ≠ 4 * m + 1) (h2 : q ≠ 4 * m + 2) (h3 : q ≠ 4 * m + 3) :
    ((((image.set (4 * m) r).set (4 * m + 1) g).set (4 * m + 2) b).set
        (4 * m + 3) 255)[q]? = image[q]? := by
  rw [List.getElem?_set, if_neg (by omega), List.getElem?_set, if_neg (by omega),
    List.getElem?_set, if_neg (by omega), List.getElem?_set, if_neg (by omega)]

/-- The four stores of one in-bounds pixel write leave alpha byte 255 at that
cell's alpha index. -/
theorem set4_getElem_alpha {image : List Nat} {m r g b : Nat}
    (h : 4 * m + 3 < image.length) :
    ((((image.set (4 * m) r).set (4 * m + 1) g).set (4 * m + 2) b).set
        (4 * m + 3) 255)[4 * m + 3]? = some 255 := by
  rw [List.getElem?_set, if_pos rfl, if_pos (by simp only [List.length_set]; omega)]

/-- An `ok` pixel write (four stores at an aligned index) preserves buffer
length and the pixel-cell invariant. -/
theorem writeRGBA_invariant {len : Nat} {image out : List Nat} {m r g b : Nat}
    (hlen : image.length = len) (ha : alphaOrZero image)
    (hok : writeRGBA len image (4 * m) r g b = .ok out) :
    out.length = len ∧ alphaOrZero out := by
  unfold writeRGBA at hok
  by_cases hb : 4 * m + 3 < len
  · rw [if_pos hb] at hok
    have hout : out =
        (((image.set (4 * m) r).set (4 * m + 1) g).set (4 * m + 2) b).set (4 * m + 3) 255 := by
      cases hok
      rfl
    subst hout
    have hL : ((((image.set (4 * m) r).set (4 * m + 1) g).set (4 * m + 2) b).set
        (4 * m + 3) 255).length = len := by
      simp only [List.length_set]
      exact hlen
    refine ⟨hL, ?_⟩
    intro p hp
    by_cases hpm : p = m
    · subst hpm
      exact Or.inl (set4_getElem_alpha (by omega))
    · rw [set4_getElem_ne (by omega) (by omega) (by omega) (by omega),
        set4_getElem_ne (by omega) (by omega) (by omega) (by omega),
        set4_getElem_ne (by omega) (by omega) (by omega) (by omega),
        set4_getElem_ne (by omega) (by omega) (by omega) (by omega)]
      exact ha p (by omega)
  · rw [if_neg hb] at hok
    cases hok

/-- One scaled-pixel store preserves buffer length and the pixel-cell
invariant. -/
theorem writeScaledPixel_invariant {pixel : Str}
    {len pixel_size width x y ex ey : Nat} {image out : List Nat}
    (hlen : image.length = len) (ha : alphaOrZero image)
    (hok : writeScaledPixel pixel len pixel_size width x y ex ey image = .ok out) :
    out.length = len ∧ alphaOrZero out := by
  unfold writeScaledPixel at hok
  rcases hc : pixelColor pixel with ⟨r, g, b⟩ | _ | _ <;> simp only [hc] at hok <;>
    try cases hok
  have hM : USIZE_MOD = 4 * 2 ^ 62 := by norm_num [USIZE_MOD]
  have h4 : ∀ A : Nat, A % USIZE_MOD * 4 % USIZE_MOD = 4 * (A % USIZE_MOD % 2 ^ 62) := by
    intro A
    rw [Nat.mul_comm (A % USIZE_MOD) 4, hM, Nat.mul_mod_mul_left]
  rw [h4] at hok
  exact writeRGBA_invariant hlen ha hok

/-- A fallible fold preserves any property its `ok` steps preserve. -/
theorem foldRR_invariant {α β : Type} (P : β → Prop) (f : β → α → RunResult β)
    (hf : ∀ b a b2, P b → f b a = .ok b2 → P b2) :
    ∀ (l : List α) (b b2 : β), P b → foldRR f l b = .ok b2 → P b2 := by
  intro l
  induction l with
  | nil =>
    intro b b2 hb hok
    unfold foldRR at hok
    cases hok
    exact hb
  | cons a rest ih =>
    intro b b2 hb hok
    unfold foldRR at hok
    rcases hfa : f b a with b1 | _ | _ <;> simp only [hfa] at hok <;> try cases hok
    exact ih b1 b2 (hf b a b1 hb hfa) hok

/-- The nested scaling loops preserve buffer length and the pixel-cell
invariant. -/
theorem writePixelScaled_invariant {pixel : Str} {len pixel_size width x y : Nat}
    {image out : List Nat}
    (hlen : image.length = len) (ha : alphaOrZero image)
    (hok : writePixelScaled pixel len pixel_size width x y image = .ok out) :
    out.length = len ∧ alphaOrZero out := by
  unfold writePixelScaled at hok
  refine foldRR_invariant (fun b => b.length = len ∧ alphaOrZero b) _
    ?_ (List.range pixel_size) image out ⟨hlen, ha⟩ hok
  intro b a b2 hb hstep
  refine foldRR_invariant (fun c => c.length = len ∧ alphaOrZero c) _
    ?_ (List.range pixel_size) b b2 hb hstep
  intro c a2 c2 hc hstep2
  exact writeScaledPixel_invariant hc.1 hc.2 hstep2

/-- The pixel loop preserves buffer length and the pixel-cell invariant. -/
theorem write_pixels_invariant (char_index panel_index len pixel_size width : Nat) :
    ∀ (pixels : List Str) (pixel_index : Nat) (image out : List Nat),
      image.length = len → alphaOrZero image →
      write_pixels char_index panel_index len pixel_size width pixels pixel_index image
        = .ok out →
      out.length = len ∧ alphaOrZero out := by
  intro pixels
  induction pixels with
  | nil =>
    intro pixel_index image out hlen ha hok
    simp only [write_pixels] at hok
    cases hok
    exact ⟨hlen, ha⟩
  | cons px rest ih =>
    intro pixel_index image out hlen ha hok
    simp only [write_pixels] at hok
    rcases h1 : vecGet coords char_index with row | _ | _ <;> simp only [h1] at hok <;>
      try cases hok
    rcases h2 : vecGet row panel_index with c | _ | _ <;> simp only [h2] at hok <;>
      try cases hok
    rcases h3 : writePixelScaled px len pixel_size width ((c.1 + pixel_index % 8) % USIZE_MOD)
        ((c.2 + pixel_index / 8) % USIZE_MOD) image with image2 | _ | _ <;>
      simp only [h3] at hok <;> try cases hok
    have hinv := writePixelScaled_invariant hlen ha h3
    exact ih (pixel_index + 1) image2 out hinv.1 hinv.2 hok

/-- The panel loop preserves buffer length and the pixel-cell invariant. -/
theorem write_panels_invariant (char_index len pixel_size width : Nat) :
    ∀ (panels : List Panel) (panel_index : Nat) (image out : List Nat),
      image.length = len → alphaOrZero image →
      write_panels char_index len pixel_size width panels panel_index image = .ok out →
      out.length = len ∧ alphaOrZero out := by
  intro panels
  induction panels with
  | nil =>
    intro panel_index image out hlen ha hok
    simp only [write_panels] at hok
    cases hok
    exact ⟨hlen, ha⟩
  | cons panel rest ih =>
    intro panel_index image out hlen ha hok
    simp only [write_panels] at hok
    rcases h1 : write_pixels char_index panel_index len pixel_size width panel 0 image
        with image2 | _ | _ <;> simp only [h1] at hok <;> try cases hok
    have hinv := write_pixels_invariant char_index panel_index len pixel_size width
      panel 0 image image2 hlen ha h1
    exact ih (panel_index + 1) image2 out hinv.1 hinv.2 hok

/-- The character loop preserves buffer length and the pixel-cell
invariant. -/
theorem write_chars_invariant (len pixel_size width : Nat) :
    ∀ (chars : List CharCell) (char_index : Nat) (image out : List Nat),
      image.length = len → alphaOrZero image →
      write_chars len pixel_size width chars char_index image = .ok out →
      out.length = len ∧ alphaOrZero out := by
  intro chars
  induction chars with
  | nil =>
    intro char_index image out hlen ha hok
    simp only [write_chars] at hok
    cases hok
    exact ⟨hlen, ha⟩
  | cons chr rest ih =>
    intro char_index image out hlen ha hok
    simp only [write_chars, write_character] at hok
    rcases h1 : write_panels char_index len pixel_size width chr 0 image
        with image2 | _ | _ <;> simp only [h1] at hok <;> try cases hok
    have hinv := write_panels_invariant char_index len pixel_size width
      chr 0 image image2 hlen ha h1
    exact ih (char_index + 1) image2 out hinv.1 hinv.2 hok

/-- C9 counterexample: the description with one character of four panels (all
inside the 4-entry coordinates row of character 0) whose fourth panel holds
one color cell is within the coordinate-table bounds, yet rendering it with
default options panics instead of producing a buffer: the fourth panel's
coordinates entry `[0, 32]` lies below the 32-row canvas, so the pixel store
indexes past the end of the buffer. -/
theorem in_table_render_panics_cex :
    withinCoords ⟨[[[], [], [], [([] : Str)]]]⟩ = true ∧
    get_logo_data ⟨[[[], [], [], [([] : Str)]]]⟩ LogoOptions.default = .panicked := by
  decide

/-- C9 amended: whenever `get_logo_data` does return `Ok` (rendering a
within-table description can instead panic — see the counterexample), the
raster carries the wrapped `usize` values `152 * s % 2 ^ 64` and
`32 * s % 2 ^ 64` as width and height for the requested pixel scale `s`, its
buffer length is exactly the wrapped `usize` product `width * height * 4`
regardless of the description's content (for every scale whose product stays
below `2 ^ 64` — all scales up to about `3.07e7` — that is literally
`152 s * 32 s * 4`; at wrap-scale sizes such as `2 ^ 27` the buffer is the
wrapped, shorter value), every aligned 4-byte pixel cell either was written
with alpha byte 255 or still holds the initial zero bytes, and the empty
description yields the all-zero (fully transparent) buffer. -/
theorem get_logo_data_ok_invariant (cache : LogoResponse) (opts : LogoOptions)
    (logo : Logo) (hok : get_logo_data cache opts = .ok logo) :
    logo.width = 152 * opts.size.getD 1 % USIZE_MOD ∧
    logo.height = 32 * opts.size.getD 1 % USIZE_MOD ∧
    logo.data.length = logo.width * logo.height % USIZE_MOD * 4 % USIZE_MOD ∧
    alphaOrZero logo.data ∧
    (cache.logo = [] →
      logo.data = List.replicate (logo.width * logo.height % USIZE_MOD * 4 % USIZE_MOD) 0) ∧
    (152 * opts.size.getD 1 * (32 * opts.size.getD 1) * 4 < USIZE_MOD →
      logo.width = 152 * opts.size.getD 1 ∧ logo.height = 32 * opts.size.getD 1 ∧
      logo.data.length = logo.width * logo.height * 4) := by
  simp only [get_logo_data] at hok
  split at hok
  case h_2 => cases hok
  case h_3 => cases hok
  case h_1 image2 heq =>
    cases hok
    have hinv := write_chars_invariant _ _ _ cache.logo 0 _ image2
      (List.length_replicate _ _) (alphaOrZero_replicate _) heq
    refine ⟨rfl, rfl, hinv.1, hinv.2, ?_, ?_⟩
    · intro hnil
      rw [hnil] at heq
      simp only [write_chars] at heq
      cases heq
      rfl
    · intro hbound
      have hM0 : 0 < USIZE_MOD := by norm_num [USIZE_MOD]
      have h1 : 152 * opts.size.getD 1 < USIZE_MOD := by
        rcases Nat.eq_zero_or_pos (opts.size.getD 1) with hs | hs
        · simpa [hs] using hM0
        · calc 152 * opts.size.getD 1
              ≤ 152 * opts.size.getD 1 * (32 * opts.size.getD 1) * 4 := by nlinarith
          _ < USIZE_MOD := hbound
      have h2 : 32 * opts.size.getD 1 < USIZE_MOD := by
        rcases Nat.eq_zero_or_pos (opts.size.getD 1) with hs | hs
        · simpa [hs] using hM0
        · calc 32 * opts.size.getD 1
              ≤ 152 * opts.size.getD 1 * (32 * opts.size.getD 1) * 4 := by nlinarith
          _ < USIZE_MOD := hbound
      have h3 : 152 * opts.size.getD 1 * (32 * opts.size.getD 1) < USIZE_MOD := by
        calc 152 * opts.size.getD 1 * (32 * opts.size.getD 1)
            ≤ 152 * opts.size.getD 1 * (32 * opts.size.getD 1) * 4 := by nlinarith
        _ < USIZE_MOD := hbound
      refine ⟨Nat.mod_eq_of_lt h1, Nat.mod_eq_of_lt h2, ?_⟩
      rw [hinv.1, Nat.mod_eq_of_lt h1, Nat.mod_eq_of_lt h2, Nat.mod_eq_of_lt h3,
        Nat.mod_eq_of_lt hbound]

/-- C9 amended witness: the empty initial cache renders at default options
(scale 1, far below the overflow bound) to the all-zero 152x32 buffer,
realising every clause including the exact unwrapped length. -/
theorem get_logo_data_ok_invariant_witness :
    (Logo.mk 152 32 (List.replicate (152 * 32 * 4) 0)).width
        = 152 * LogoOptions.default.size.getD 1 % USIZE_MOD ∧
    (Logo.mk 152 32 (List.replicate (152 * 32 * 4) 0)).height
        = 32 * LogoOptions.default.size.getD 1 % USIZE_MOD ∧
    (Logo.mk 152 32 (List.replicate (152 * 32 * 4) 0)).data.length
        = (Logo.mk 152 32 (List.replicate (152 * 32 * 4) 0)).width *
            (Logo.mk 152 32 (List.replicate (152 * 32 * 4) 0)).height % USIZE_MOD *
            4 % USIZE_MOD ∧
    alphaOrZero (Logo.mk 152 32 (List.replicate (152 * 32 * 4) 0)).data ∧
    (LOGO_CACHE_init.logo = [] →
      (Logo.mk 152 32 (List.replicate (152 * 32 * 4) 0)).data
        = List.replicate
            ((Logo.mk 152 32 (List.replicate (152 * 32 * 4) 0)).width *
              (Logo.mk 152 32 (List.replicate (152 * 32 * 4) 0)).height % USIZE_MOD *
              4 % USIZE_MOD) 0) ∧
    (152 * LogoOptions.default.size.getD 1 * (32 * LogoOptions.default.size.getD 1) * 4
        < USIZE_MOD →
      (Logo.mk 152 32 (List.replicate (152 * 32 * 4) 0)).width
          = 152 * LogoOptions.default.size.getD 1 ∧
      (Logo.mk 152 32 (List.replicate (152 * 32 * 4) 0)).height
          = 32 * LogoOptions.default.size.getD 1 ∧
      (Logo.mk 152 32 (List.replicate (152 * 32 * 4) 0)).data.length
          = (Logo.mk 152 32 (List.replicate (152 * 32 * 4) 0)).width *
              (Logo.mk 152 32 (List.replicate (152 * 32 * 4) 0)).height * 4) :=
  get_logo_data_ok_invariant LOGO_CACHE_init LogoOptions.default
    ⟨152, 32, List.replicate (152 * 32 * 4) 0⟩ rfl

end LogoPng
